import Mathlib

/-!
# Verification of the cloud-streaming-args-debugger repository

Shallow embedding of the observable behaviour of the Argument Debugger
application (src/cli_args_debugger.cpp, src/cli_args_display.hpp,
src/seh_wrapper.cpp).  Wide strings are modelled as Lean `String`
(UTF-16 code units abstracted to `Char`), C doubles/floats appearing in
the FPS and audio-level math as exact rationals `ℚ`, the file system as
`Option` contents inside an application state record, and Win32
environment failures (AppData lookup, directory creation, file open) as
boolean flags of an explicit environment record.
-/

namespace ArgsDebugger

/-- Environment for the Win32 calls made by SaveData/ReadData:
`appdataOk` models `SHGetKnownFolderPath` succeeding, `dirOk` models
`CreateDirectoryW` succeeding or failing with `ERROR_ALREADY_EXISTS`,
`openWriteOk` models `_wfopen_s(.., "w")` succeeding, and `now` models
the value returned by `time(nullptr)`. -/
structure Env where
  appdataOk : Bool
  dirOk : Bool
  openWriteOk : Bool
  now : Int
deriving Repr, DecidableEq

/-- Observable state of `ArgumentDebuggerWindow`: the members touched by
OnCharInput, UpdateQrCode, SaveData, ReadData and ShowLogs, plus a model
of the two files the program touches.  `savedFile` is the contents of
`%APPDATA%\ArgumentDebugger\saved_data.txt` (`none` = absent/unopenable),
`logFile` the lines of `<exe-dir>\ArgumentDebugger.log` as `fgetws`
returns them (`none` = unopenable), `qr_payload` the string last fed to
`QrCode::encodeText` (proxy for the QR bitmap), and `quit_posted` records
a `PostQuitMessage` call. -/
structure AppState where
  user_input : String
  command_status : String
  loaded_data : String
  is_running : Bool
  quit_posted : Bool
  args : List String
  current_fps : ℚ
  synced_fps : Int
  last_qr_update_time : Nat
  qr_payload : String
  savedFile : Option String
  logFile : Option (List String)
deriving Repr, DecidableEq

/-- `_wcsicmp(a, b) == 0`: case-insensitive equality, each character
mapped through `towlower` (ASCII lowering, as in the C locale). -/
def wcsicmpEq (a b : String) : Bool :=
  a.data.map Char.toLower == b.data.map Char.toLower

/-- `std::wstring::pop_back` (the caller guards against emptiness). -/
def strPopBack (s : String) : String := ⟨s.data.dropLast⟩

/-- `wstring_to_string`: UTF-16 → UTF-8 re-encoding via
`WideCharToMultiByte(CP_UTF8, ...)`.  Lean strings are
encoding-independent sequences of characters, so the re-encoding is the
identity on the modelled text. -/
def wstring_to_string (w : String) : String := w

/-- `static_cast<int>` applied to a floating-point value: truncation
toward zero. -/
def cppTruncToInt (q : ℚ) : Int := if 0 ≤ q then ⌊q⌋ else ⌈q⌉

/-- The string streamed into `oss` by `UpdateQrCode` (and mirrored in
`QrCodeTest.QrDataFormat`): `"t=" << unix_time << ";f=" << fps_for_qr`,
then, when `args_` is non-empty, `";args="` followed by each argument
converted to UTF-8 with a trailing space. -/
def buildQrData (unixTime : Int) (fps : Int) (args : List String) : String :=
  let base := "t=" ++ toString unixTime ++ ";f=" ++ toString fps
  if args.isEmpty then base
  else base ++ ";args=" ++ args.foldl (fun acc a => acc ++ wstring_to_string a ++ " ") ""

/-- The rate-limit test of `UpdateQrCode`:
`current_time - last_qr_update_time_ < 5000` on `ULONGLONG`s, i.e.
subtraction modulo 2^64. -/
def qrThrottled (current_time : Nat) (s : AppState) : Bool :=
  (current_time + 2 ^ 64 - s.last_qr_update_time % 2 ^ 64) % 2 ^ 64 < 5000

/-- `ArgumentDebuggerWindow::UpdateQrCode(current_time)`.  Returns the
state unchanged inside the 5-second window; otherwise records
`current_time`, truncates `current_fps_` to `int`, stores it in
`synced_fps_`, and rebuilds the QR payload (and bitmap, which
`qr_payload` stands for).  `unixTime` models `time(nullptr)`. -/
def updateQrCode (unixTime : Int) (current_time : Nat) (s : AppState) : AppState :=
  if qrThrottled current_time s then s
  else
    let fps_for_qr := cppTruncToInt s.current_fps
    { s with
      last_qr_update_time := current_time
      synced_fps := fps_for_qr
      qr_payload := buildQrData unixTime fps_for_qr s.args }

/-- The two lines `fwprintf(file, L"Timestamp: %lld\nFPS: %d\n", ...)`
writes in `SaveData`. -/
def saveContent (timestamp : Int) (fps : Int) : String :=
  "Timestamp: " ++ toString timestamp ++ "\n" ++ ("FPS: " ++ toString fps ++ "\n")

/-- `ArgumentDebuggerWindow::SaveData`: resolve AppData, create the
directory (already-exists is fine), open `saved_data.txt` for writing
(truncating), and write the timestamp and `synced_fps_`. -/
def saveData (env : Env) (s : AppState) : AppState :=
  if env.appdataOk then
    if env.dirOk then
      if env.openWriteOk then
        { s with
          savedFile := some (saveContent env.now s.synced_fps)
          command_status := "Data saved successfully." }
      else { s with command_status := "Error opening file for writing." }
    else { s with command_status := "Error creating directory." }
  else { s with command_status := "Error retrieving AppData path." }

/-- `ArgumentDebuggerWindow::ReadData`: resolve AppData, open
`saved_data.txt` for reading, clear `loaded_data_` and append every line
`fgetws` returns (their concatenation is the file's contents). -/
def readData (env : Env) (s : AppState) : AppState :=
  if env.appdataOk then
    match s.savedFile with
    | some contents =>
        { s with loaded_data := contents, command_status := "Data loaded successfully." }
    | none =>
        { s with loaded_data := "", command_status := "File not found." }
  else { s with command_status := "Error retrieving AppData path." }

/-- The body of the `while (fgetws(...))` loop in `ShowLogs`: keep a
window of at most 100 lines, erasing the oldest before pushing. -/
def keepLast100 (acc : List String) (line : String) : List String :=
  (if 100 ≤ acc.length then acc.drop 1 else acc) ++ [line]

/-- `ArgumentDebuggerWindow::ShowLogs`: clear `loaded_data_`; if the log
file cannot be opened report "Log file not found."; otherwise collect
the last (at most) 100 lines and emit them under a
`"... (showing last N lines)"` header. -/
def showLogs (s : AppState) : AppState :=
  match s.logFile with
  | none => { s with loaded_data := "", command_status := "Log file not found." }
  | some lines =>
      let lastLines := lines.foldl keepLast100 []
      { s with
        loaded_data :=
          "... (showing last " ++ toString lastLines.length ++ " lines)\n\n"
            ++ String.join lastLines
        command_status := "Log file loaded (last 100 lines)." }

def vkReturn : Char := Char.ofNat 13
def vkBack : Char := Char.ofNat 8
def vkEscape : Char := Char.ofNat 27

/-- `ArgumentDebuggerWindow::OnCharInput(ch)`: Enter dispatches the
case-insensitive commands exit/save/read/logs (unknown input sets
`command_status_`) and always clears the buffer; Backspace pops the last
character of a non-empty buffer; Escape quits; anything else is
appended. -/
def onCharInput (env : Env) (ch : Char) (s : AppState) : AppState :=
  if ch = vkReturn then
    let s' :=
      if wcsicmpEq s.user_input "exit" then
        { s with is_running := false, quit_posted := true }
      else if wcsicmpEq s.user_input "save" then saveData env s
      else if wcsicmpEq s.user_input "read" then readData env s
      else if wcsicmpEq s.user_input "logs" then showLogs s
      else { s with command_status := "Unknown command." }
    { s' with user_input := "" }
  else if ch = vkBack then
    if s.user_input.isEmpty then s
    else { s with user_input := strPopBack s.user_input }
  else if ch = vkEscape then
    { s with is_running := false, quit_posted := true }
  else
    { s with user_input := s.user_input.push ch }

/-- `needsQuotes` test of `BuildCliArgsText` (src/cli_args_display.hpp):
empty, or containing a space or a double quote. -/
def needsQuotes (arg : String) : Bool :=
  arg.isEmpty || arg.contains ' ' || arg.contains '"'

/-- `BuildCliArgsText` (src/cli_args_display.hpp): quote the arguments
that need it and separate consecutive arguments by a single space,
adding none after the last. -/
def BuildCliArgsText : List String → String
  | [] => ""
  | arg :: rest =>
      let piece := if needsQuotes arg then "\"" ++ arg ++ "\"" else arg
      if rest.isEmpty then piece else piece ++ " " ++ BuildCliArgsText rest

/-- `BuildCliHeaderText` (src/cli_args_display.hpp). -/
def BuildCliHeaderText (args : List String) : String :=
  if args.isEmpty then "No arguments were received."
  else "Received the following arguments:"

/-! ## Audio capture path (`PollMicrophone`) -/

/-- One captured non-silent buffer, tagged with the sample format the
switch in `PollMicrophone` dispatches on.  Float samples are modelled as
exact rationals; PCM samples as the integers the buffer holds; 24-bit
PCM as the raw byte triples `(p[3i], p[3i+1], p[3i+2])`. -/
inductive AudioSamples where
  | f32 (xs : List ℚ)
  | p16 (xs : List Int)
  | p24 (xs : List (Fin 256 × Fin 256 × Fin 256))
  | p32 (xs : List Int)
deriving DecidableEq

/-- The 24-bit decode in `PollMicrophone`:
`(p[3i] << 8 | p[3i+1] << 16 | p[3i+2] << 24) >> 8` on `int32_t`, i.e.
the sign-extended little-endian 24-bit value. -/
def sx24 (b : Fin 256 × Fin 256 × Fin 256) : Int :=
  let u : Nat := b.1.val + 256 * b.2.1.val + 65536 * b.2.2.val
  if u < 8388608 then (u : Int) else (u : Int) - 16777216

/-- The `val` computed for each sample before the `if (val < 0)`
negation: the sample scaled to [-1, 1] by the format's divisor. -/
def rawVals : AudioSamples → List ℚ
  | .f32 xs => xs
  | .p16 xs => xs.map fun s => (s : ℚ) / 32768
  | .p24 xs => xs.map fun b => (sx24 b : ℚ) / 8388608
  | .p32 xs => xs.map fun s => (s : ℚ) / 2147483648

/-- The per-sample loop of `PollMicrophone`: starting from
`float peak = 0.f`, negate a negative `val` and keep it when it exceeds
the running peak. -/
def peakFold (vals : List ℚ) : ℚ :=
  vals.foldl
    (fun peak v =>
      let val := if v < 0 then -v else v
      if peak < val then val else peak)
    0

/-- The peak `PollMicrophone` computes for a buffer. -/
def peakBuf (buf : AudioSamples) : ℚ := peakFold (rawVals buf)

/-- The normalized absolute sample values the specification speaks of:
`|s|` for float, `|s|/32768`, `|s|/8388608`, `|s|/2147483648` for
16/24/32-bit PCM. -/
def normAbsVals (buf : AudioSamples) : List ℚ :=
  (rawVals buf).map fun v => |v|

/-- The smoothing store at the end of the packet loop:
`mic_level_.store(current * 0.5f + peak * 0.5f)`. -/
def micLevelStep (old : ℚ) (buf : AudioSamples) : ℚ :=
  old * (1 / 2) + peakBuf buf * (1 / 2)

/-! ## SEH thread wrapper (`src/seh_wrapper.cpp`) -/

/-- Outcome of running `AudioCaptureThreadImpl` inside the `__try`:
either a normal return value, or a structured exception with the given
code (`GetExceptionCode()`). -/
inductive AudioThreadOutcome where
  | normal (ret : Nat)
  | seh (code : Nat)
deriving DecidableEq

/-- Uppercase hex digit. -/
def hexDigitUpper (n : Nat) : Char :=
  if n < 10 then Char.ofNat (48 + n) else Char.ofNat (55 + n)

/-- `wsprintfW(buf, L"...%08X", code)`: eight zero-padded uppercase hex
digits (a `DWORD` is below 2^32, so eight digits suffice). -/
def hex8 (n : Nat) : String :=
  ⟨(List.range 8).map fun i => hexDigitUpper (n / 16 ^ (7 - i) % 16)⟩

/-- `RawAudioThreadWithSEH`: forwards to the implementation; on a
structured exception the `__except` filter maps an access violation to
exit code 0xC0000005, a stack overflow to 0xC00000FD, and anything else
to the raw code, logging one message (via `LogSEH`) in each case.
Returns `(thread exit code, logged messages)`. -/
def RawAudioThreadWithSEH : AudioThreadOutcome → Nat × List String
  | .normal r => (r, [])
  | .seh code =>
      if code = 0xC0000005 then
        (0xC0000005, ["SEH: Access violation in audio thread (0xC0000005)"])
      else if code = 0xC00000FD then
        (0xC00000FD, ["SEH: Stack overflow in audio thread (0xC00000FD)"])
      else
        (code, ["SEH: Exception in audio thread, code=0x" ++ hex8 code])

/-! ## Specification-side definitions (for refinement statements) -/

/-- Specification wording for the QR args section: each argument
followed by one trailing space, in list order. -/
def concatWithTrailingSpaces : List String → String
  | [] => ""
  | a :: rest => a ++ " " ++ concatWithTrailingSpaces rest

/-- Specification wording for C3: arguments joined by single spaces with
no trailing space. -/
def joinSpaceSeparated : List String → String
  | [] => ""
  | [a] => a
  | a :: rest => a ++ " " ++ joinSpaceSeparated rest

/-- A sample environment in which every Win32 call succeeds. -/
def env0 : Env := { appdataOk := true, dirOk := true, openWriteOk := true, now := 0 }

/-- A sample application state. -/
def state0 : AppState :=
  { user_input := "", command_status := "", loaded_data := "", is_running := true,
    quit_posted := false, args := [], current_fps := 0, synced_fps := 0,
    last_qr_update_time := 0, qr_payload := "", savedFile := none, logFile := none }

end ArgsDebugger

namespace ArgsDebugger

/-! ## Helper lemmas -/

lemma foldl_qr_args (args : List String) :
    ∀ acc : String,
      args.foldl (fun acc a => acc ++ wstring_to_string a ++ " ") acc
        = acc ++ concatWithTrailingSpaces args := by
  induction args with
  | nil => intro acc; simp [concatWithTrailingSpaces]
  | cons a rest ih =>
      intro acc
      rw [List.foldl_cons, ih]
      simp [concatWithTrailingSpaces, wstring_to_string, String.append_assoc]

lemma needsQuotes_iff (a : String) :
    needsQuotes a = true ↔ (a = "" ∨ a.contains ' ' = true ∨ a.contains '"' = true) := by
  simp [needsQuotes, Bool.or_eq_true, String.isEmpty_iff, or_assoc]

lemma buildCliArgsText_cons_cons (a b : String) (rs : List String) :
    BuildCliArgsText (a :: b :: rs)
      = (if needsQuotes a then "\"" ++ a ++ "\"" else a) ++ " "
          ++ BuildCliArgsText (b :: rs) := rfl

lemma joinSpaceSeparated_cons_cons (a b : String) (rs : List String) :
    joinSpaceSeparated (a :: b :: rs) = a ++ " " ++ joinSpaceSeparated (b :: rs) := rfl

lemma wcsicmpEq_iff (u a : String) :
    wcsicmpEq u a = true ↔ u.data.map Char.toLower = a.data.map Char.toLower := by
  simp [wcsicmpEq]

lemma wcsicmpEq_unique {u a : String} (b : String) (h : wcsicmpEq u a = true)
    (hab : a.data.map Char.toLower ≠ b.data.map Char.toLower) :
    wcsicmpEq u b = false := by
  rw [wcsicmpEq, beq_eq_false_iff_ne]
  intro hub
  exact hab (((wcsicmpEq_iff u a).mp h).symm.trans hub)

/-! ## Claim theorems -/

/-- C2: the QR payload string built by `UpdateQrCode` is exactly
`"t=<unix-time>;f=<fps>"` for an empty argument list, and otherwise that
prefix followed by `";args="` and each argument (converted to UTF-8)
followed by one trailing space, in list order. -/
theorem qrData_format (u fps : Int) (args : List String) :
    buildQrData u fps args =
      if args = [] then "t=" ++ toString u ++ ";f=" ++ toString fps
      else "t=" ++ toString u ++ ";f=" ++ toString fps ++ ";args="
            ++ concatWithTrailingSpaces args := by
  cases args with
  | nil => simp [buildQrData]
  | cons a rest =>
      rw [if_neg (List.cons_ne_nil a rest)]
      simp only [buildQrData, List.isEmpty_cons, Bool.false_eq_true, if_false]
      rw [foldl_qr_args]
      simp [String.append_assoc]

/-- C3: `BuildCliArgsText` echoes the arguments joined by single spaces
with no trailing space, wrapping an argument in double quotes exactly
when it is empty, contains a space, or contains a double quote, and
leaving every other argument unmodified. -/
theorem buildCliArgsText_spec (args : List String) :
    BuildCliArgsText args =
      joinSpaceSeparated (args.map fun a =>
        if a = "" ∨ a.contains ' ' = true ∨ a.contains '"' = true
        then "\"" ++ a ++ "\"" else a) := by
  induction args with
  | nil => rfl
  | cons a rest ih =>
      have hq : (if needsQuotes a then "\"" ++ a ++ "\"" else a)
          = (if a = "" ∨ a.contains ' ' = true ∨ a.contains '"' = true
             then "\"" ++ a ++ "\"" else a) := by
        by_cases h : a = "" ∨ a.contains ' ' = true ∨ a.contains '"' = true
        · rw [if_pos h, if_pos ((needsQuotes_iff a).mpr h)]
        · rw [if_neg h, if_neg]
          simp only [needsQuotes_iff]
          exact h
      cases rest with
      | nil =>
          show (if needsQuotes a then "\"" ++ a ++ "\"" else a) = _
          rw [List.map_cons, List.map_nil]
          exact hq
      | cons b rs =>
          rw [buildCliArgsText_cons_cons, ih, hq]
          rw [List.map_cons _ a (b :: rs), List.map_cons _ b rs,
            joinSpaceSeparated_cons_cons]

/-- C5: `RawAudioThreadWithSEH` converts a structured exception in the
audio thread body into a thread exit code instead of propagating it:
0xC0000005 for an access violation, 0xC00000FD for a stack overflow, the
raw exception code otherwise, logging a message in each case; with no
exception it returns the value of `AudioCaptureThreadImpl`. -/
theorem sehWrapper_spec (r code : Nat) :
    (RawAudioThreadWithSEH (.normal r) = (r, [])) ∧
    (RawAudioThreadWithSEH (.seh 0xC0000005)
        = (0xC0000005, ["SEH: Access violation in audio thread (0xC0000005)"])) ∧
    (RawAudioThreadWithSEH (.seh 0xC00000FD)
        = (0xC00000FD, ["SEH: Stack overflow in audio thread (0xC00000FD)"])) ∧
    (code ≠ 0xC0000005 → code ≠ 0xC00000FD →
      RawAudioThreadWithSEH (.seh code)
        = (code, ["SEH: Exception in audio thread, code=0x" ++ hex8 code])) := by
  refine ⟨rfl, rfl, rfl, fun h1 h2 => ?_⟩
  simp [RawAudioThreadWithSEH, h1, h2]

/-- Witness for C5 at the concrete fault code 1 (not AV, not SO). -/
theorem sehWrapper_spec_witness :
    RawAudioThreadWithSEH (.seh 1)
      = (1, ["SEH: Exception in audio thread, code=0x00000001"]) := by
  have h := (sehWrapper_spec 0 1).2.2.2 (by decide) (by decide)
  exact h.trans (by decide)

/-- C1: on Enter, `OnCharInput` dispatches exactly the four
case-insensitive commands: `exit` quits (posts `WM_QUIT` and clears
`is_running_`), `save` invokes `SaveData`, `read` invokes `ReadData`,
`logs` invokes `ShowLogs`, and any other buffer only sets
`command_status_` to "Unknown command."; the buffer is cleared in every
case. -/
theorem cmdDispatch (env : Env) (s : AppState) :
    (wcsicmpEq s.user_input "exit" = true →
      onCharInput env vkReturn s
        = { s with is_running := false, quit_posted := true, user_input := "" }) ∧
    (wcsicmpEq s.user_input "save" = true →
      onCharInput env vkReturn s = { saveData env s with user_input := "" }) ∧
    (wcsicmpEq s.user_input "read" = true →
      onCharInput env vkReturn s = { readData env s with user_input := "" }) ∧
    (wcsicmpEq s.user_input "logs" = true →
      onCharInput env vkReturn s = { showLogs s with user_input := "" }) ∧
    (wcsicmpEq s.user_input "exit" = false → wcsicmpEq s.user_input "save" = false →
      wcsicmpEq s.user_input "read" = false → wcsicmpEq s.user_input "logs" = false →
      onCharInput env vkReturn s
        = { s with command_status := "Unknown command.", user_input := "" }) := by
  refine ⟨fun h => ?_, fun h => ?_, fun h => ?_, fun h => ?_, fun h1 h2 h3 h4 => ?_⟩
  · simp [onCharInput, h]
  · have hx := wcsicmpEq_unique "exit" h (by decide)
    simp [onCharInput, h, hx]
  · have hx := wcsicmpEq_unique "exit" h (by decide)
    have hs := wcsicmpEq_unique "save" h (by decide)
    simp [onCharInput, h, hx, hs]
  · have hx := wcsicmpEq_unique "exit" h (by decide)
    have hs := wcsicmpEq_unique "save" h (by decide)
    have hr := wcsicmpEq_unique "read" h (by decide)
    simp [onCharInput, h, hx, hs, hr]
  · simp [onCharInput, h1, h2, h3, h4]

/-- Witness for C1: submitting the buffer "SAVE" invokes SaveData. -/
theorem cmdDispatch_witness :
    onCharInput env0 vkReturn { state0 with user_input := "SAVE" }
      = { saveData env0 { state0 with user_input := "SAVE" } with user_input := "" } :=
  (cmdDispatch env0 { state0 with user_input := "SAVE" }).2.1 (by decide)

/-- C9: Enter always clears the input buffer (also on an unknown
command); Backspace leaves an empty buffer unchanged and otherwise
removes exactly the last character; every character other than Enter,
Backspace and Escape is appended verbatim. -/
theorem inputBufferSemantics (env : Env) (s : AppState) (ch : Char) :
    ((onCharInput env vkReturn s).user_input = "") ∧
    (s.user_input = "" → onCharInput env vkBack s = s) ∧
    (s.user_input ≠ "" →
      onCharInput env vkBack s = { s with user_input := strPopBack s.user_input }) ∧
    (ch ≠ vkReturn → ch ≠ vkBack → ch ≠ vkEscape →
      onCharInput env ch s = { s with user_input := s.user_input.push ch }) := by
  have hbr : vkBack ≠ vkReturn := by decide
  refine ⟨?_, fun h => ?_, fun h => ?_, fun h1 h2 h3 => ?_⟩
  · simp [onCharInput]
  · have he : s.user_input.isEmpty = true := by simp [String.isEmpty_iff, h]
    simp [onCharInput, he, hbr]
  · have he : s.user_input.isEmpty = false := by
      rw [← Bool.not_eq_true, String.isEmpty_iff]
      exact h
    simp [onCharInput, he, hbr]
  · simp [onCharInput, h1, h2, h3]

/-- C4: a successful `SaveData` replaces the contents of
`saved_data.txt` with exactly the two lines `Timestamp: <int64>` and
`FPS: <int>`, where the FPS written is `synced_fps_` — the same integer
placed in the QR payload by the most recent accepted `UpdateQrCode`. -/
theorem saveData_format (env : Env) (s : AppState)
    (h1 : env.appdataOk = true) (h2 : env.dirOk = true) (h3 : env.openWriteOk = true) :
    (saveData env s).savedFile
        = some ("Timestamp: " ++ toString env.now ++ "\n"
                  ++ ("FPS: " ++ toString s.synced_fps ++ "\n")) ∧
    (saveData env s).command_status = "Data saved successfully." ∧
    (∀ (u : Int) (t : Nat) (s' : AppState), qrThrottled t s' = false →
      (updateQrCode u t s').qr_payload
        = buildQrData u (updateQrCode u t s').synced_fps s'.args) := by
  refine ⟨?_, ?_, ?_⟩
  · simp [saveData, h1, h2, h3, saveContent]
  · simp [saveData, h1, h2, h3]
  · intro u t s' hq
    simp [updateQrCode, hq]

/-- Witness for C4 in the all-successful environment. -/
theorem saveData_format_witness :
    (saveData env0 state0).savedFile = some ("Timestamp: " ++ toString (0 : Int) ++ "\n"
        ++ ("FPS: " ++ toString (0 : Int) ++ "\n")) :=
  (saveData_format env0 state0 (by decide) (by decide) (by decide)).1

/-- C7: after a successful `SaveData` with `synced_fps_ = f`, `ReadData`
reports "Data loaded successfully." and `loaded_data_` holds the saved
`Timestamp:` line followed by the line `FPS: f`. -/
theorem saveReadRoundTrip (env env' : Env) (s : AppState) (f : Int)
    (h1 : env.appdataOk = true) (h2 : env.dirOk = true) (h3 : env.openWriteOk = true)
    (h4 : env'.appdataOk = true) (hf : s.synced_fps = f) :
    (readData env' (saveData env s)).command_status = "Data loaded successfully." ∧
    (readData env' (saveData env s)).loaded_data
      = "Timestamp: " ++ toString env.now ++ "\n" ++ ("FPS: " ++ toString f ++ "\n") := by
  have hsf : (saveData env s).savedFile = some (saveContent env.now f) := by
    simp [saveData, h1, h2, h3, hf]
  constructor
  · simp [readData, h4, hsf]
  · simp [readData, h4, hsf, saveContent]

/-- Witness for C7 with `synced_fps_ = 75` as in the repository's
round-trip test. -/
theorem saveReadRoundTrip_witness :
    (readData env0 (saveData env0 { state0 with synced_fps := 75 })).loaded_data
      = "Timestamp: " ++ toString (0 : Int) ++ "\n" ++ ("FPS: " ++ toString (75 : Int) ++ "\n") :=
  (saveReadRoundTrip env0 env0 { state0 with synced_fps := 75 } 75
    (by decide) (by decide) (by decide) (by decide) (by decide)).2

/-- C8: a call of `UpdateQrCode` less than 5000 ms after the previous
accepted update changes nothing at all; a call at or beyond the
threshold records the new time, stores the integer truncation of
`current_fps_` into `synced_fps_`, and rebuilds the QR payload. -/
theorem qrThrottle (u : Int) (t : Nat) (s : AppState)
    (hle : s.last_qr_update_time ≤ t) (hlt : t < 2 ^ 64) :
    (t - s.last_qr_update_time < 5000 → updateQrCode u t s = s) ∧
    (5000 ≤ t - s.last_qr_update_time →
      (updateQrCode u t s).last_qr_update_time = t ∧
      (updateQrCode u t s).synced_fps = cppTruncToInt s.current_fps ∧
      (updateQrCode u t s).qr_payload
        = buildQrData u (cppTruncToInt s.current_fps) s.args) := by
  have hpow : (2 : Nat) ^ 64 = 18446744073709551616 := by norm_num
  have hmod : s.last_qr_update_time % 2 ^ 64 = s.last_qr_update_time :=
    Nat.mod_eq_of_lt (lt_of_le_of_lt hle hlt)
  constructor
  · intro h
    have hq : qrThrottled t s = true := by
      simp only [qrThrottled, hmod, decide_eq_true_eq, hpow]
      rw [hpow] at hlt
      omega
    simp [updateQrCode, hq]
  · intro h
    have hq : qrThrottled t s = false := by
      simp only [qrThrottled, hmod, decide_eq_false_iff_not, hpow, not_lt]
      rw [hpow] at hlt
      omega
    refine ⟨?_, ?_, ?_⟩ <;> simp [updateQrCode, hq]

/-- Witness for C8: the first update after exactly 5000 ms is accepted. -/
theorem qrThrottle_witness :
    (updateQrCode 0 5000 state0).last_qr_update_time = 5000 ∧
    (updateQrCode 0 5000 state0).synced_fps = cppTruncToInt state0.current_fps ∧
    (updateQrCode 0 5000 state0).qr_payload
      = buildQrData 0 (cppTruncToInt state0.current_fps) state0.args :=
  (qrThrottle 0 5000 state0 (by simp [state0]) (by norm_num)).2 (by simp [state0])

lemma foldl_keepLast100 (lines : List String) :
    ∀ acc : List String, acc.length ≤ 100 →
      lines.foldl keepLast100 acc = (acc ++ lines).drop (acc.length + lines.length - 100) := by
  induction lines with
  | nil =>
      intro acc h
      have h0 : acc.length - 100 = 0 := by omega
      simp [h0]
  | cons l ls ih =>
      intro acc h
      rw [List.foldl_cons]
      by_cases hc : 100 ≤ acc.length
      · have hlen : acc.length = 100 := le_antisymm h hc
        have hstep : keepLast100 acc l = acc.drop 1 ++ [l] := by
          simp [keepLast100, hc]
        have hlen' : (acc.drop 1 ++ [l]).length ≤ 100 := by
          simp [hlen]
        rw [hstep, ih _ hlen']
        have e1 : (acc.drop 1 ++ [l]).length + ls.length - 100 = ls.length := by
          simp [hlen]
        rw [e1, List.append_assoc, List.singleton_append]
        rw [List.drop_append_eq_append_drop, List.drop_append_eq_append_drop]
        have e2 : (acc.drop 1).drop ls.length = acc.drop (l :: ls).length := by
          rw [List.drop_drop]
          congr 1
          simp [Nat.add_comm]
        have e3 : ls.length - (acc.drop 1).length
            = acc.length + (l :: ls).length - 100 - acc.length := by
          simp only [List.length_drop, List.length_cons, hlen]
          omega
        rw [e2, e3]
        congr 2
        simp only [List.length_cons, hlen]
        omega
      · have hstep : keepLast100 acc l = acc ++ [l] := by
          simp [keepLast100, hc]
        have hlen' : (acc ++ [l]).length ≤ 100 := by
          simp
          omega
        rw [hstep, ih _ hlen', List.append_assoc, List.singleton_append]
        congr 1
        simp
        omega

lemma lastLines_eq (lines : List String) :
    lines.foldl keepLast100 [] = lines.drop (lines.length - 100) := by
  have h := foldl_keepLast100 lines [] (by simp)
  simpa using h

lemma lastLines_length (lines : List String) :
    (lines.foldl keepLast100 []).length = min lines.length 100 := by
  rw [lastLines_eq, List.length_drop]
  omega

/-- C10: `ShowLogs` either fails — status "Log file not found." and
`loaded_data_` left empty — or loads a bounded tail: a
`"... (showing last N lines)"` header (N = number of kept lines, at most
100) followed by the last at-most-100 lines of the log in order, with
status "Log file loaded (last 100 lines).". -/
theorem showLogs_spec (s : AppState) :
    (s.logFile = none →
      showLogs s = { s with loaded_data := "", command_status := "Log file not found." }) ∧
    (∀ lines, s.logFile = some lines →
      (showLogs s).loaded_data
        = "... (showing last " ++ toString (min lines.length 100) ++ " lines)\n\n"
            ++ String.join (lines.drop (lines.length - 100)) ∧
      (showLogs s).command_status = "Log file loaded (last 100 lines).") := by
  constructor
  · intro h
    simp [showLogs, h]
  · intro lines h
    refine ⟨?_, ?_⟩
    · simp only [showLogs, h]
      rw [lastLines_length, lastLines_eq]
    · simp [showLogs, h]

/-- Witness for C10 on a concrete two-line log. -/
theorem showLogs_spec_witness :
    (showLogs { state0 with logFile := some ["first\n", "second\n"] }).loaded_data
      = "... (showing last " ++ toString (min 2 100) ++ " lines)\n\n"
          ++ String.join (["first\n", "second\n"].drop (2 - 100)) :=
  ((showLogs_spec { state0 with logFile := some ["first\n", "second\n"] }).2
    ["first\n", "second\n"] (by decide)).1

lemma ite_lt_max (a b : ℚ) : (if a < b then b else a) = max a b := by
  rcases lt_or_le a b with h | h
  · rw [if_pos h, max_eq_right h.le]
  · rw [if_neg (not_lt.mpr h), max_eq_left h]

lemma peakFold_eq_foldl_max (l : List ℚ) :
    ∀ a : ℚ,
      l.foldl
        (fun peak v =>
          let val := if v < 0 then -v else v
          if peak < val then val else peak) a
        = (l.map fun v => |v|).foldl max a := by
  induction l with
  | nil => intro a; rfl
  | cons x xs ih =>
      intro a
      rw [List.foldl_cons, List.map_cons, List.foldl_cons, ih]
      congr 1
      show (if a < (if x < 0 then -x else x) then (if x < 0 then -x else x) else a) = max a |x|
      have habs : (if x < 0 then -x else x) = |x| := by
        by_cases hx : x < 0
        · rw [if_pos hx, abs_of_neg hx]
        · rw [if_neg hx, abs_of_nonneg (not_lt.mp hx)]
      rw [habs, ite_lt_max]

lemma le_foldl_max (l : List ℚ) : ∀ a : ℚ, a ≤ l.foldl max a := by
  induction l with
  | nil => intro a; exact le_refl a
  | cons x xs ih =>
      intro a
      rw [List.foldl_cons]
      exact le_trans (le_max_left a x) (ih _)

lemma mem_le_foldl_max (l : List ℚ) : ∀ (a x : ℚ), x ∈ l → x ≤ l.foldl max a := by
  induction l with
  | nil => intro a x hx; exact absurd hx (List.not_mem_nil x)
  | cons y ys ih =>
      intro a x hx
      rw [List.foldl_cons]
      rcases List.mem_cons.mp hx with h | h
      · subst h
        exact le_trans (le_max_right a x) (le_foldl_max ys _)
      · exact ih _ x h

lemma foldl_max_mem (l : List ℚ) : ∀ a : ℚ, l.foldl max a = a ∨ l.foldl max a ∈ l := by
  induction l with
  | nil => intro a; exact Or.inl rfl
  | cons x xs ih =>
      intro a
      rw [List.foldl_cons]
      rcases ih (max a x) with h | h
      · rcases max_choice a x with hm | hm
        · exact Or.inl (h.trans hm)
        · exact Or.inr (List.mem_cons.mpr (Or.inl (h.trans hm)))
      · exact Or.inr (List.mem_cons.mpr (Or.inr h))

lemma peakBuf_eq_foldl_max (buf : AudioSamples) :
    peakBuf buf = (normAbsVals buf).foldl max 0 := by
  rw [peakBuf, peakFold, peakFold_eq_foldl_max, normAbsVals]

lemma normAbsVals_nonneg (buf : AudioSamples) :
    ∀ x ∈ normAbsVals buf, 0 ≤ x := by
  intro x hx
  obtain ⟨v, _, rfl⟩ := List.mem_map.mp hx
  exact abs_nonneg v

/-- C6: for a non-silent buffer, `PollMicrophone` computes the peak as
the maximum of the normalized absolute sample values (|s| for 32-bit
float, |s|/32768 for 16-bit PCM, |s|/8388608 for sign-extended 24-bit
PCM, |s|/2147483648 for 32-bit PCM) and stores the smoothed value
`old * 0.5 + peak * 0.5` into `mic_level_`. -/
theorem pollMicrophone_peak (old : ℚ) (buf : AudioSamples) :
    (∀ v ∈ normAbsVals buf, v ≤ peakBuf buf) ∧
    (normAbsVals buf ≠ [] → peakBuf buf ∈ normAbsVals buf) ∧
    micLevelStep old buf = old * (1 / 2) + peakBuf buf * (1 / 2) := by
  refine ⟨?_, ?_, rfl⟩
  · intro v hv
    rw [peakBuf_eq_foldl_max]
    exact mem_le_foldl_max _ 0 v hv
  · intro hne
    rw [peakBuf_eq_foldl_max]
    rcases foldl_max_mem (normAbsVals buf) 0 with h0 | hmem
    · obtain ⟨x, hx⟩ := List.exists_mem_of_ne_nil _ hne
      have hx0 : x ≤ 0 := by
        have := mem_le_foldl_max (normAbsVals buf) 0 x hx
        rwa [h0] at this
      have hxe : x = 0 := le_antisymm hx0 (normAbsVals_nonneg buf x hx)
      rw [h0, ← hxe]
      exact hx
    · exact hmem

/-- Witness for C6 on the repository test's 16-bit samples. -/
theorem pollMicrophone_peak_witness :
    peakBuf (AudioSamples.p16 [0, 16384, -16384, 32767, -32768])
      ∈ normAbsVals (AudioSamples.p16 [0, 16384, -16384, 32767, -32768]) :=
  (pollMicrophone_peak 0 (AudioSamples.p16 [0, 16384, -16384, 32767, -32768])).2.1
    (by simp [normAbsVals, rawVals])

/-- Witness for C9: typing 'a' appends it to the buffer. -/
theorem inputBufferSemantics_witness :
    onCharInput env0 'a' { state0 with user_input := "ab" }
      = { { state0 with user_input := "ab" } with
          user_input := String.push ({ state0 with user_input := "ab" } : AppState).user_input 'a' } :=
  (inputBufferSemantics env0 { state0 with user_input := "ab" } 'a').2.2.2
    (by decide) (by decide) (by decide)

end ArgsDebugger
